import Mathlib

/-!
Verification of the translation pipeline of `paper_translator.py`
(`test1.py`): the `translate_text_with_ollama` engine, the
`is_translation_error` classifier, and the `search_and_translate_papers`
orchestrator loop.

Python strings are modelled as lists of Unicode codepoints (`PyStr`),
byte strings as lists of `Nat` below 256.  The behaviour of the
text-generation endpoint is a function from the issued HTTP request to
an abstract response (`HttpBehavior`): either a transport-level error
(connection refused, timeout, non-2xx status — everything that raises
`requests.exceptions.RequestException`) or a 2xx response with a byte
body.  Library calls made by the source (`bytes.decode('utf-8',
errors='ignore')`, `json.loads`, `str.strip`, `str.replace`,
`str.startswith`, `dict.get`) are embedded as executable Lean
functions below.
-/

namespace PaperTranslator

set_option maxRecDepth 100000

/-- A Python string: a finite sequence of Unicode codepoints. -/
abbrev PyStr := List Nat

/-- Lift a Lean string literal to the codepoint model. -/
def pyOf (s : String) : PyStr := s.data.map Char.toNat

/-! ## `bytes.decode('utf-8', errors='ignore')`

Best-effort UTF-8 decoding: maximal invalid subparts are dropped and
decoding continues, never raising.  Mirrors CPython's `ignore` error
handler: an always-invalid lead byte (`0x80`–`0xC1`, `0xF5`–`0xFF`) is
dropped alone; a lead byte whose continuation bytes fail their
range check is dropped together with the valid continuation bytes read
so far, and scanning resumes at the offending byte.  Truncated
sequences at end of input are dropped. -/

/-- Lower bound for the first continuation byte of a 3-byte sequence
(`0xE0` forbids overlong encodings). -/
def cont3Lo (lead : Nat) : Nat := if lead = 0xE0 then 0xA0 else 0x80

/-- Upper bound (exclusive) for the first continuation byte of a 3-byte
sequence (`0xED` forbids surrogates). -/
def cont3Hi (lead : Nat) : Nat := if lead = 0xED then 0xA0 else 0xC0

/-- Lower bound for the first continuation byte of a 4-byte sequence
(`0xF0` forbids overlong encodings). -/
def cont4Lo (lead : Nat) : Nat := if lead = 0xF0 then 0x90 else 0x80

/-- Upper bound (exclusive) for the first continuation byte of a 4-byte
sequence (`0xF4` caps codepoints at `0x10FFFF`). -/
def cont4Hi (lead : Nat) : Nat := if lead = 0xF4 then 0x90 else 0xC0

/-- Classify the next UTF-8 unit of a byte stream: `(some c, k)` when
the first `k` bytes form a well-formed sequence for the scalar `c`;
`(none, k)` when the maximal subpart of an ill-formed sequence spans
`k` bytes, which the `ignore` handler drops before rescanning.  Always
`1 ≤ k`. -/
def nextUnit : List Nat → Option Nat × Nat
  | [] => (none, 1)
  | b :: bs =>
    if b < 0x80 then (some b, 1)
    else if b < 0xC2 then (none, 1)
    else if b < 0xE0 then
      match bs with
      | [] => (none, 1)
      | b2 :: _ =>
        if 0x80 ≤ b2 ∧ b2 < 0xC0 then (some ((b - 0xC0) * 64 + (b2 - 0x80)), 2)
        else (none, 1)
    else if b < 0xF0 then
      match bs with
      | [] => (none, 1)
      | b2 :: bs2 =>
        if cont3Lo b ≤ b2 ∧ b2 < cont3Hi b then
          match bs2 with
          | [] => (none, 2)
          | b3 :: _ =>
            if 0x80 ≤ b3 ∧ b3 < 0xC0 then
              (some ((b - 0xE0) * 4096 + (b2 - 0x80) * 64 + (b3 - 0x80)), 3)
            else (none, 2)
        else (none, 1)
    else if b < 0xF5 then
      match bs with
      | [] => (none, 1)
      | b2 :: bs2 =>
        if cont4Lo b ≤ b2 ∧ b2 < cont4Hi b then
          match bs2 with
          | [] => (none, 2)
          | b3 :: bs3 =>
            if 0x80 ≤ b3 ∧ b3 < 0xC0 then
              match bs3 with
              | [] => (none, 3)
              | b4 :: _ =>
                if 0x80 ≤ b4 ∧ b4 < 0xC0 then
                  (some ((b - 0xF0) * 0x40000 + (b2 - 0x80) * 4096 + (b3 - 0x80) * 64
                    + (b4 - 0x80)), 4)
                else (none, 3)
            else (none, 2)
        else (none, 1)
    else (none, 1)

/-- Fuelled scan of `bytes.decode('utf-8', errors='ignore')`: one unit
of fuel per decoded or dropped unit, and every unit consumes at least
one byte, so fuel equal to the input length always suffices
(`decodeGo_congr`).  Fuel keeps the recursion structural, hence
kernel-evaluable. -/
def decodeGo : Nat → List Nat → PyStr
  | _, [] => []
  | 0, _ :: _ => []
  | fuel + 1, b :: bs =>
    match nextUnit (b :: bs) with
    | (some c, k) => c :: decodeGo fuel ((b :: bs).drop k)
    | (none, k) => decodeGo fuel ((b :: bs).drop k)

/-- `bytes.decode('utf-8', errors='ignore')`: total, drops invalid
byte subsequences, returns the surviving codepoints. -/
def decodeUtf8Ignore (bytes : List Nat) : PyStr := decodeGo bytes.length bytes

/-- UTF-8 encoding of one Unicode scalar value. -/
def encodeCodepoint (n : Nat) : List Nat :=
  if n < 0x80 then [n]
  else if n < 0x800 then [0xC0 + n / 64, 0x80 + n % 64]
  else if n < 0x10000 then [0xE0 + n / 4096, 0x80 + n / 64 % 64, 0x80 + n % 64]
  else [0xF0 + n / 0x40000, 0x80 + n / 4096 % 64, 0x80 + n / 64 % 64, 0x80 + n % 64]

/-- UTF-8 encoding of a codepoint string. -/
def encodeUtf8 (s : PyStr) : List Nat :=
  s.foldr (fun c acc => encodeCodepoint c ++ acc) []

/-- A Unicode scalar value: encodable in UTF-8 (no surrogates, below
`0x110000`). -/
def isScalarB (n : Nat) : Bool := n < 0xD800 || (0xE000 ≤ n && n < 0x110000)

/-- A byte that the `ignore` decoder drops in every context: a stray
continuation byte or overlong-2-byte lead (`0x80`–`0xC1`), or a lead
beyond the UTF-8 range (`0xF5` and up). -/
def junkByte (b : Nat) : Bool := (0x80 ≤ b && b < 0xC2) || 0xF5 ≤ b

/-! ## `str.strip()`, `str.replace(old, "")`, `str.startswith` -/

/-- Python `str.isspace` / the whitespace set stripped by `str.strip()`. -/
def isPySpace (c : Nat) : Bool :=
  (9 ≤ c && c ≤ 13) || (28 ≤ c && c ≤ 32) || c = 0x85 || c = 0xA0 ||
    c = 0x1680 || (0x2000 ≤ c && c ≤ 0x200A) || c = 0x2028 || c = 0x2029 ||
    c = 0x202F || c = 0x205F || c = 0x3000

/-- Python `str.strip()`: remove leading and trailing whitespace. -/
def pyStrip (s : PyStr) : PyStr :=
  ((s.dropWhile isPySpace).reverse.dropWhile isPySpace).reverse

/-- Single left-to-right scan of Python `str.replace(pat, "")`,
with explicit fuel (one unit per input position) so the function is
structurally recursive and kernel-evaluable. -/
def removeAllGo (pat : PyStr) : Nat → PyStr → PyStr
  | _, [] => []
  | 0, s => s
  | fuel + 1, c :: rest =>
    if 0 < pat.length ∧ pat.isPrefixOf (c :: rest) then
      removeAllGo pat fuel ((c :: rest).drop pat.length)
    else
      c :: removeAllGo pat fuel rest

/-- Python `str.replace(pat, "")`: remove every (non-overlapping,
leftmost-first) occurrence of `pat`. -/
def removeAll (pat s : PyStr) : PyStr := removeAllGo pat s.length s

/-- Python `pat in s` (substring containment), used to state claims
about residual boilerplate. -/
def containsSub (pat s : PyStr) : Bool :=
  (List.range (s.length + 1)).any fun i => pat.isPrefixOf (s.drop i)

/-- Python `str.startswith(pat)`. -/
def startsWith (pat s : PyStr) : Bool := pat.isPrefixOf s

/-! ## `json.loads`

A JSON value as produced by Python's `json` module: `dict`s are
association lists of codepoint-string keys (later duplicate keys win,
as in Python), strings are codepoint strings, numbers keep their raw
lexeme (no claim inspects numeric values). -/

inductive JsonValue where
  | null
  | bool (b : Bool)
  | num (raw : PyStr)
  | str (s : PyStr)
  | arr (elems : List JsonValue)
  | obj (fields : List (PyStr × JsonValue))

/-- JSON insignificant whitespace. -/
def isJsonWs (c : Nat) : Bool := c = 32 || c = 9 || c = 10 || c = 13

/-- Skip JSON whitespace. -/
def skipWs (s : PyStr) : PyStr := s.dropWhile isJsonWs

/-- Value of one hex digit, if any. -/
def hexVal (c : Nat) : Option Nat :=
  if 48 ≤ c ∧ c ≤ 57 then some (c - 48)
  else if 97 ≤ c ∧ c ≤ 102 then some (c - 87)
  else if 65 ≤ c ∧ c ≤ 70 then some (c - 55)
  else none

/-- Codepoint for a single-character JSON escape (`\" \\ \/ \b \f \n \r \t`). -/
def escCode (c : Nat) : Option Nat :=
  if c = 34 then some 34
  else if c = 92 then some 92
  else if c = 47 then some 47
  else if c = 98 then some 8
  else if c = 102 then some 12
  else if c = 110 then some 10
  else if c = 114 then some 13
  else if c = 116 then some 9
  else none

/-- Parse the body of a JSON string after its opening quote, returning
the decoded codepoints and the input after the closing quote.  Raw
control characters are rejected (Python's default `strict=True`). -/
def parseStrBody : PyStr → Option (PyStr × PyStr)
  | [] => none
  | 34 :: rest => some ([], rest)
  | 92 :: e :: rest =>
    if e = 117 then
      match rest with
      | h1 :: h2 :: h3 :: h4 :: r =>
        match hexVal h1, hexVal h2, hexVal h3, hexVal h4 with
        | some a, some b, some c, some d =>
          (fun p => ((((a * 16 + b) * 16 + c) * 16 + d) :: p.1, p.2)) <$> parseStrBody r
        | _, _, _, _ => none
      | _ => none
    else
      match escCode e with
      | some code => (fun p => (code :: p.1, p.2)) <$> parseStrBody rest
      | none => none
  | c :: rest =>
    if c < 32 then none else (fun p => (c :: p.1, p.2)) <$> parseStrBody rest

/-- Parse `digit+`, returning the digits consumed and the rest. -/
def parseDigits (s : PyStr) : PyStr × PyStr :=
  (s.takeWhile (fun c => 48 ≤ c && c ≤ 57), s.dropWhile (fun c => 48 ≤ c && c ≤ 57))

/-- Parse an optional fraction part `. digit+`.  If the dot is not
followed by a digit, nothing is consumed (the dot then makes the
enclosing document fail, as in Python). -/
def parseFrac (s : PyStr) : PyStr × PyStr :=
  match s with
  | 46 :: r =>
    let (ds, r') := parseDigits r
    if ds = [] then ([], 46 :: r) else (46 :: ds, r')
  | _ => ([], s)

/-- Parse an optional exponent part `(e|E) (+|-)? digit+`; consumes
nothing when the part is not well-formed. -/
def parseExp (s : PyStr) : PyStr × PyStr :=
  match s with
  | e :: r =>
    if e = 101 ∨ e = 69 then
      match r with
      | sgn :: r' =>
        if sgn = 43 ∨ sgn = 45 then
          let (ds, r'') := parseDigits r'
          if ds = [] then ([], e :: sgn :: r') else (e :: sgn :: ds, r'')
        else
          let (ds, r'') := parseDigits r
          if ds = [] then ([], e :: r) else (e :: ds, r'')
      | [] => ([], [e])
    else ([], e :: r)
  | [] => ([], [])

/-- Parse a JSON number lexeme (after an optional leading minus sign
already checked by the caller): `int frac? exp?` with the
no-leading-zero rule.  Returns the lexeme consumed and the rest. -/
def parseNumTail (s : PyStr) : Option (PyStr × PyStr) :=
  match s with
  | [] => none
  | c :: rest =>
    if c = 48 then
      -- "0" may not be followed by further integer digits
      let (frac, r1) := parseFrac rest
      let (ex, r2) := parseExp r1
      some (48 :: frac ++ ex, r2)
    else if 49 ≤ c ∧ c ≤ 57 then
      let (ds, r0) := parseDigits rest
      let (frac, r1) := parseFrac r0
      let (ex, r2) := parseExp r1
      some (c :: ds ++ frac ++ ex, r2)
    else none

mutual

/-- Parse one JSON value (leading whitespace allowed).  Fuel is spent
on every call; `2 * length + 4` units always suffice. -/
def parseVal : Nat → PyStr → Option (JsonValue × PyStr)
  | 0, _ => none
  | fuel + 1, s =>
    match skipWs s with
    | [] => none
    | c :: rest =>
      if c = 123 then
        -- object
        match skipWs rest with
        | 125 :: r => some (.obj [], r)
        | r => parseMembers fuel [] r
      else if c = 91 then
        -- array
        match skipWs rest with
        | 93 :: r => some (.arr [], r)
        | r => parseElems fuel [] r
      else if c = 34 then
        match parseStrBody rest with
        | some (str, r) => some (.str str, r)
        | none => none
      else if c = 116 then
        match rest with
        | 114 :: 117 :: 101 :: r => some (.bool true, r)
        | _ => none
      else if c = 102 then
        match rest with
        | 97 :: 108 :: 115 :: 101 :: r => some (.bool false, r)
        | _ => none
      else if c = 110 then
        match rest with
        | 117 :: 108 :: 108 :: r => some (.null, r)
        | _ => none
      else if c = 45 then
        match parseNumTail rest with
        | some (lex, r) => some (.num (45 :: lex), r)
        | none => none
      else
        match parseNumTail (c :: rest) with
        | some (lex, r) => some (.num lex, r)
        | none => none

/-- Parse the members of a JSON object after `{` (first member not yet
read; the empty-object case is handled by `parseVal`). -/
def parseMembers : Nat → List (PyStr × JsonValue) → PyStr → Option (JsonValue × PyStr)
  | 0, _, _ => none
  | fuel + 1, acc, s =>
    match skipWs s with
    | 34 :: rest =>
      match parseStrBody rest with
      | some (key, r1) =>
        match skipWs r1 with
        | 58 :: r2 =>
          match parseVal fuel r2 with
          | some (v, r3) =>
            match skipWs r3 with
            | 44 :: r4 => parseMembers fuel (acc ++ [(key, v)]) r4
            | 125 :: r4 => some (.obj (acc ++ [(key, v)]), r4)
            | _ => none
          | none => none
        | _ => none
      | none => none
    | _ => none

/-- Parse the elements of a JSON array after `[` (first element not yet
read; the empty-array case is handled by `parseVal`). -/
def parseElems : Nat → List JsonValue → PyStr → Option (JsonValue × PyStr)
  | 0, _, _ => none
  | fuel + 1, acc, s =>
    match parseVal fuel s with
    | some (v, r1) =>
      match skipWs r1 with
      | 44 :: r2 => parseElems fuel (acc ++ [v]) r2
      | 93 :: r2 => some (.arr (acc ++ [v]), r2)
      | _ => none
    | none => none

end

/-- Python `json.loads`: parse a whole document; trailing whitespace
only.  `none` models `json.JSONDecodeError`. -/
def jsonLoads (s : PyStr) : Option JsonValue :=
  match parseVal (2 * s.length + 4) s with
  | some (v, rest) => if skipWs rest = [] then some v else none
  | none => none

/-- Python `dict.get(key, default)` on a dict built from parsed JSON
members: the last binding of a duplicated key wins, absence gives
`none` (the caller supplies the default). -/
def dictGet (fields : List (PyStr × JsonValue)) (key : PyStr) : Option JsonValue :=
  fields.foldl (fun acc kv => if kv.1 = key then some kv.2 else acc) none

/-! ## The translation engine: `translate_text_with_ollama` -/

/-- `OLLAMA_API_URL` from the source. -/
def OLLAMA_API_URL : PyStr := pyOf "http://localhost:11434/api/generate"

/-- The JSON body of the POST request: `\x7b"model": ..., "prompt": ...,
"stream": false\x7d`. -/
structure Payload where
  model : PyStr
  prompt : PyStr
  stream : Bool
deriving DecidableEq, Repr

/-- One HTTP request as issued by `requests.post(OLLAMA_API_URL,
json=payload, timeout=180)`. -/
structure HttpRequest where
  url : PyStr
  method : PyStr
  payload : Payload
  timeoutSeconds : Nat
deriving DecidableEq, Repr

/-- What the endpoint does with a request.  `requestError` covers every
condition that raises `requests.exceptions.RequestException`: connection
refused, timeout, transport errors, and the non-2xx statuses turned into
`HTTPError` by `response.raise_for_status()`.  `okBody` is a 2xx
response carrying raw body bytes. -/
inductive HttpBehavior where
  | requestError
  | okBody (bytes : List Nat)

/-- How one call of `translate_text_with_ollama` ends.  `success` is the
normal return (line 61 of the source), `failure` a return from one of
the two `except` blocks, and `uncaught` a Python exception that none of
the `except` clauses matches and that therefore propagates past the
function's boundary. -/
inductive Outcome where
  | success (text : PyStr)
  | failure (reason : PyStr)
  | uncaught (excName : PyStr)
deriving DecidableEq, Repr

/-- Reason returned by the `except requests.exceptions.RequestException`
block. -/
def connErrorMsg : PyStr :=
  pyOf "翻訳エラー：Ollama APIに接続できませんでした。Ollamaが起動しているか確認してください。"

/-- Reason returned by the `except json.JSONDecodeError` block. -/
def parseErrorMsg : PyStr :=
  pyOf "翻訳エラー：Ollamaからのレスポンスの解析に失敗しました。"

/-- Sentinel used as the `dict.get` default when the `"response"` key is
absent. -/
def noResultMsg : PyStr := pyOf "翻訳結果がありません。"

/-- Everything of the prompt f-string before the `{text}` slot. -/
def promptHead : PyStr :=
  pyOf ("You are a silent, professional Japanese translation engine. Your task is to translate the following English academic abstract into Japanese.\n\n**Strict Instructions:**\n- **CRITICAL: You MUST output using Japanese characters (Kanji, Hiragana, Katakana). Do NOT use Romaji.**\n- Translate the text into natural-sounding, clear, and accurate Japanese.\n- Maintain a professional and academic tone.\n- **CRITICAL: You MUST complete the translation.** Do not stop halfway.\n- **CRITICAL: Do NOT output ANYTHING other than the translated Japanese text.** Do not include preambles, apologies, or any meta-commentary.\n\n--- English Abstract ---\n")

/-- Everything of the prompt f-string after the `{text}` slot. -/
def promptTail : PyStr := pyOf "\n--- End of Abstract ---\n"

/-- The prompt: the compile-time template with `text` substituted into
its single slot. -/
def buildPrompt (text : PyStr) : PyStr := promptHead ++ text ++ promptTail

/-- The single request `translate_text_with_ollama` issues. -/
def mkRequest (text model_name : PyStr) : HttpRequest :=
  { url := OLLAMA_API_URL
    method := pyOf "POST"
    payload := { model := model_name, prompt := buildPrompt text, stream := false }
    timeoutSeconds := 180 }

/-- The two boilerplate phrases removed from the translation, in the
list order of the source. -/
def unwanted_phrases : List PyStr :=
  [pyOf "Here is the translation:",
   pyOf "Here is the translation of the English text into Japanese:"]

/-- The cleanup loop: `for phrase in unwanted_phrases: translated_text =
translated_text.replace(phrase, "")`. -/
def removePhrases (s : PyStr) : PyStr :=
  unwanted_phrases.foldl (fun t p => removeAll p t) s

/-- The body of the `try` block after `requests.post` returned (or
raised).  Decodes, parses, extracts and cleans; `dict.get` on a
non-dict and `.strip()` on a non-string raise `AttributeError`, which
no `except` clause catches. -/
def handleResponse : HttpBehavior → Outcome
  | .requestError => .failure connErrorMsg
  | .okBody bytes =>
    let response_text := decodeUtf8Ignore bytes
    match jsonLoads response_text with
    | none => .failure parseErrorMsg
    | some (.obj fields) =>
      match dictGet fields (pyOf "response") with
      | none => .success (removePhrases (pyStrip noResultMsg))
      | some (.str s) => .success (removePhrases (pyStrip s))
      | some _ => .uncaught (pyOf "AttributeError")
    | some _ => .uncaught (pyOf "AttributeError")

/-- `translate_text_with_ollama(text, model_name)` against an endpoint
whose behaviour is the (deterministic) function `endpoint`.  Returns
the outcome together with the list of HTTP requests issued during the
call (the source contains exactly one `requests.post`). -/
def translate_text_with_ollama (endpoint : HttpRequest → HttpBehavior)
    (text model_name : PyStr) : Outcome × List HttpRequest :=
  let req := mkRequest text model_name
  (handleResponse (endpoint req), [req])

/-- `is_translation_error(translated_text)`:
`translated_text.startswith("翻訳エラー")`. -/
def is_translation_error (translated_text : PyStr) : Bool :=
  startsWith (pyOf "翻訳エラー") translated_text

/-! ## The orchestrator loop of `search_and_translate_papers`

Only the per-record loop is modelled: arXiv search, file naming and
progress printing are external plumbing.  `fill` abstracts
`textwrap.fill(·, width=50)` (an external library call whose exact
line-breaking is irrelevant to the claims). -/

/-- One arXiv result as consumed by the loop. -/
structure PaperRecord where
  title : PyStr
  summary : PyStr
  entry_id : PyStr
deriving DecidableEq, Repr

/-- `result.summary.replace('\n', ' ')`. -/
def normalizeAbstract (s : PyStr) : PyStr :=
  s.map fun c => if c = 10 then 32 else c

/-- The `output_content` block written to the file for one record. -/
def recordBlock (fill : PyStr → PyStr) (r : PaperRecord) (translated : PyStr) : PyStr :=
  pyOf "■ タイトル: " ++ r.title ++ pyOf "\n" ++
    pyOf "■ URL: " ++ r.entry_id ++ pyOf "\n\n" ++
    pyOf "--- 翻訳された要旨 ---\n" ++
    fill translated ++ pyOf "\n" ++
    List.replicate 50 45 ++ pyOf "\n\n"

/-- Whether an outcome is an exception escaping the engine. -/
def isUncaught : Outcome → Bool
  | .uncaught _ => true
  | _ => false

/-- The text the loop works with: the returned string of the engine
call, whichever branch produced it (string-based ABI). -/
def outcomeText : Outcome → PyStr
  | .success t => t
  | .failure t => t
  | .uncaught e => e

/-- The `for i, result in enumerate(results)` loop: every record is
translated and its block appended to the file; an exception escaping
`translate_text_with_ollama` is only caught by the `except Exception`
around the whole loop, abandoning all remaining records.  Returns the
list of blocks written. -/
def processRecords (fill : PyStr → PyStr) (endpoint : HttpRequest → HttpBehavior)
    (model_name : PyStr) : List PaperRecord → List PyStr
  | [] => []
  | r :: rest =>
    match (translate_text_with_ollama endpoint (normalizeAbstract r.summary) model_name).1 with
    | .uncaught _ => []
    | .success t => recordBlock fill r t :: processRecords fill endpoint model_name rest
    | .failure t => recordBlock fill r t :: processRecords fill endpoint model_name rest

/-! ## Concrete endpoint bodies used in the claim theorems -/

/-- Body from the spec's C3 scenario: valid JSON whose `response` text
carries the first boilerplate phrase. -/
def c3Body : List Nat :=
  encodeUtf8 (pyOf "\x7b\"response\": \"Here is the translation: こんにちは\"\x7d")

/-- Valid JSON document used in the C5 lossy-decoding scenario. -/
def c5Json : PyStr := pyOf "\x7b\"response\": \"こんにちは\"\x7d"

/-- Body whose `response` text carries the second boilerplate phrase. -/
def c9Body : List Nat :=
  encodeUtf8
    (pyOf "\x7b\"response\": \"Here is the translation of the English text into Japanese: X\"\x7d")

/-- Body whose `response` text itself begins with the failure marker. -/
def c10Body : List Nat :=
  encodeUtf8 (pyOf "\x7b\"response\": \"翻訳エラー：既知の問題\"\x7d")

/-- Small distinct records for the orchestrator witnesses. -/
def mkRec (n : Nat) : PaperRecord := { title := [n], summary := [n], entry_id := [n] }

/-! ## Decoder lemmas

Fuel is irrelevant as long as it covers the input length
(`decodeGo_congr`); unconditionally-invalid bytes are dropped wherever
they occur (`decode_junk_cons`, `decode_junk_append`); well-formed
UTF-8 prefixes decode to their codepoints regardless of what follows
(`decode_encodeCodepoint`, `decode_encodeUtf8`). -/

lemma decodeGo_nil (f : Nat) : decodeGo f [] = [] := by
  cases f <;> rfl

lemma nextUnit_pos (l : List Nat) : 1 ≤ (nextUnit l).2 := by
  rcases l with _ | ⟨b, _ | ⟨b2, _ | ⟨b3, _ | ⟨b4, t⟩⟩⟩⟩ <;>
    simp only [nextUnit] <;> first | (split_ifs <;> simp) | simp

lemma decodeGo_congr : ∀ (f1 : Nat) (l : List Nat) (f2 : Nat),
    l.length ≤ f1 → l.length ≤ f2 → decodeGo f1 l = decodeGo f2 l := by
  intro f1
  induction f1 with
  | zero =>
    intro l f2 h1 _
    cases l with
    | nil => rw [decodeGo_nil, decodeGo_nil]
    | cons b bs => simp at h1
  | succ f ih =>
    intro l f2 h1 h2
    cases l with
    | nil => rw [decodeGo_nil, decodeGo_nil]
    | cons b bs =>
      cases f2 with
      | zero => simp at h2
      | succ g =>
        simp only [List.length_cons] at h1 h2
        have hk : 1 ≤ (nextUnit (b :: bs)).2 := nextUnit_pos (b :: bs)
        simp only [decodeGo]
        rcases hn : nextUnit (b :: bs) with ⟨c?, k⟩
        rw [hn] at hk
        simp only at hk
        have hlen : ((b :: bs).drop k).length ≤ f ∧ ((b :: bs).drop k).length ≤ g := by
          simp only [List.length_drop, List.length_cons]
          omega
        cases c? with
        | none =>
          show decodeGo f ((b :: bs).drop k) = decodeGo g ((b :: bs).drop k)
          exact ih _ g hlen.1 hlen.2
        | some c =>
          show c :: decodeGo f ((b :: bs).drop k) = c :: decodeGo g ((b :: bs).drop k)
          exact congrArg _ (ih _ g hlen.1 hlen.2)

lemma decodeUtf8Ignore_cons_step (b : Nat) (bs : List Nat) :
    decodeUtf8Ignore (b :: bs) =
      match nextUnit (b :: bs) with
      | (some c, k) => c :: decodeGo bs.length ((b :: bs).drop k)
      | (none, k) => decodeGo bs.length ((b :: bs).drop k) := rfl

lemma decode_junk_cons (b : Nat) (t : List Nat) (h : junkByte b = true) :
    decodeUtf8Ignore (b :: t) = decodeUtf8Ignore t := by
  simp only [junkByte, Bool.or_eq_true, Bool.and_eq_true, decide_eq_true_eq] at h
  have hu : nextUnit (b :: t) = (none, 1) := by
    simp only [nextUnit]
    split_ifs <;> first | rfl | omega | (exfalso; omega)
  rw [decodeUtf8Ignore_cons_step, hu]
  rfl

lemma decode_junk_append (J t : List Nat) (h : ∀ b ∈ J, junkByte b = true) :
    decodeUtf8Ignore (J ++ t) = decodeUtf8Ignore t := by
  induction J with
  | nil => rfl
  | cons b J ih =>
    rw [List.cons_append, decode_junk_cons _ _ (h b (by simp))]
    exact ih fun x hx => h x (by simp [hx])

set_option maxHeartbeats 1000000 in
lemma decode_encodeCodepoint (c : Nat) (t : List Nat) (h : isScalarB c = true) :
    decodeUtf8Ignore (encodeCodepoint c ++ t) = c :: decodeUtf8Ignore t := by
  simp only [isScalarB, Bool.or_eq_true, Bool.and_eq_true, decide_eq_true_eq] at h
  by_cases h1 : c < 0x80
  · have e1 : encodeCodepoint c = [c] := by simp [encodeCodepoint, h1]
    have hu : nextUnit (c :: t) = (some c, 1) := by
      simp only [nextUnit]
      split_ifs <;> first | rfl | omega | (exfalso; omega)
    rw [e1, List.cons_append, List.nil_append, decodeUtf8Ignore_cons_step, hu]
    rfl
  · by_cases h2 : c < 0x800
    · have e1 : encodeCodepoint c = [0xC0 + c / 64, 0x80 + c % 64] := by
        simp [encodeCodepoint, h1, h2]
      have hu : nextUnit ((0xC0 + c / 64) :: (0x80 + c % 64) :: t) = (some c, 2) := by
        simp only [nextUnit, cont3Lo, cont3Hi, cont4Lo, cont4Hi]
        split_ifs <;>
          first
            | omega
            | (exfalso; omega)
            | (simp only [Prod.mk.injEq, Option.some.injEq]; exact ⟨by omega, trivial⟩)
      rw [e1]
      rw [show ([0xC0 + c / 64, 0x80 + c % 64] : List Nat) ++ t
            = (0xC0 + c / 64) :: (0x80 + c % 64) :: t from rfl]
      rw [decodeUtf8Ignore_cons_step, hu]
      show c :: decodeGo (t.length + 1) t = c :: decodeUtf8Ignore t
      exact congrArg _ (decodeGo_congr _ t _ (by omega) (by omega))
    · by_cases h3 : c < 0x10000
      · have e1 : encodeCodepoint c = [0xE0 + c / 4096, 0x80 + c / 64 % 64, 0x80 + c % 64] := by
          simp [encodeCodepoint, h1, h2, h3]
        have hu : nextUnit ((0xE0 + c / 4096) :: (0x80 + c / 64 % 64) :: (0x80 + c % 64) :: t)
            = (some c, 3) := by
          simp only [nextUnit, cont3Lo, cont3Hi, cont4Lo, cont4Hi]
          split_ifs <;>
            first
              | omega
              | (exfalso; omega)
              | (simp only [Prod.mk.injEq, Option.some.injEq]; exact ⟨by omega, trivial⟩)
        rw [e1]
        rw [show ([0xE0 + c / 4096, 0x80 + c / 64 % 64, 0x80 + c % 64] : List Nat) ++ t
              = (0xE0 + c / 4096) :: (0x80 + c / 64 % 64) :: (0x80 + c % 64) :: t from rfl]
        rw [decodeUtf8Ignore_cons_step, hu]
        show c :: decodeGo (t.length + 1 + 1) t = c :: decodeUtf8Ignore t
        exact congrArg _ (decodeGo_congr _ t _ (by omega) (by omega))
      · have e1 : encodeCodepoint c =
            [0xF0 + c / 0x40000, 0x80 + c / 4096 % 64, 0x80 + c / 64 % 64, 0x80 + c % 64] := by
          simp [encodeCodepoint, h1, h2, h3]
        have hu : nextUnit ((0xF0 + c / 0x40000) :: (0x80 + c / 4096 % 64) ::
              (0x80 + c / 64 % 64) :: (0x80 + c % 64) :: t) = (some c, 4) := by
          simp only [nextUnit, cont3Lo, cont3Hi, cont4Lo, cont4Hi]
          split_ifs <;>
            first
              | omega
              | (exfalso; omega)
              | (simp only [Prod.mk.injEq, Option.some.injEq]; exact ⟨by omega, trivial⟩)
        rw [e1]
        rw [show ([0xF0 + c / 0x40000, 0x80 + c / 4096 % 64, 0x80 + c / 64 % 64,
                0x80 + c % 64] : List Nat) ++ t
              = (0xF0 + c / 0x40000) :: (0x80 + c / 4096 % 64) ::
                (0x80 + c / 64 % 64) :: (0x80 + c % 64) :: t from rfl]
        rw [decodeUtf8Ignore_cons_step, hu]
        show c :: decodeGo (t.length + 1 + 1 + 1) t = c :: decodeUtf8Ignore t
        exact congrArg _ (decodeGo_congr _ t _ (by omega) (by omega))

lemma decode_encodeUtf8 (u : PyStr) (t : List Nat) (h : ∀ n ∈ u, isScalarB n = true) :
    decodeUtf8Ignore (encodeUtf8 u ++ t) = u ++ decodeUtf8Ignore t := by
  induction u with
  | nil => simp [encodeUtf8]
  | cons c u ih =>
    have e1 : encodeUtf8 (c :: u) = encodeCodepoint c ++ encodeUtf8 u := rfl
    rw [e1, List.append_assoc, decode_encodeCodepoint c _ (h c (by simp)), List.cons_append]
    rw [ih fun x hx => h x (by simp [hx])]

/-! ## Orchestrator step lemma -/

lemma processRecords_cons_not_uncaught (fill : PyStr → PyStr)
    (endpoint : HttpRequest → HttpBehavior) (model_name : PyStr)
    (r : PaperRecord) (rest : List PaperRecord)
    (h : isUncaught
      (translate_text_with_ollama endpoint (normalizeAbstract r.summary) model_name).1
        = false) :
    processRecords fill endpoint model_name (r :: rest)
      = recordBlock fill r
          (outcomeText
            (translate_text_with_ollama endpoint (normalizeAbstract r.summary) model_name).1)
        :: processRecords fill endpoint model_name rest := by
  cases ho : (translate_text_with_ollama endpoint (normalizeAbstract r.summary) model_name).1 with
  | success t => simp only [processRecords, ho, outcomeText]
  | failure t => simp only [processRecords, ho, outcomeText]
  | uncaught e =>
    rw [ho] at h
    simp [isUncaught] at h

/-! ## Claims -/

/-- C1.  The claim states that for every behaviour of the endpoint —
including a 2xx response whose body is valid JSON missing the text
field — `translate` returns Success or Failure and never raises past
its boundary.  The code violates this: when the body is valid JSON
whose top level is not an object (here `[1]`), `response_data.get`
raises `AttributeError`, which neither `except` clause catches, so the
exception escapes `translate_text_with_ollama`.  This theorem evaluates
the embedded engine at that failing input. -/
theorem c1_attribute_error_escapes_on_valid_json_array :
    (translate_text_with_ollama (fun _ => .okBody (encodeUtf8 (pyOf "[1]")))
        (pyOf "abstract") (pyOf "llama3")).1
      = .uncaught (pyOf "AttributeError") := by decide

/-- C2.  Every invocation of `translate` that returns a Failure — for
any endpoint behaviour, so connection/transport errors, timeouts and
response-parse errors alike — carries a reason string that begins with
the fixed marker `"翻訳エラー"`, and `is_translation_error` therefore
recognises every such Failure by prefix inspection alone. -/
theorem c2_failure_reasons_carry_marker
    (endpoint : HttpRequest → HttpBehavior) (text model_name reason : PyStr)
    (h : (translate_text_with_ollama endpoint text model_name).1 = .failure reason) :
    startsWith (pyOf "翻訳エラー") reason = true ∧ is_translation_error reason = true := by
  have h' : handleResponse (endpoint (mkRequest text model_name)) = .failure reason := h
  cases hb : endpoint (mkRequest text model_name) with
  | requestError =>
    rw [hb] at h'
    simp only [handleResponse] at h'
    cases h'
    exact ⟨by decide, by decide⟩
  | okBody bytes =>
    rw [hb] at h'
    simp only [handleResponse] at h'
    split at h' <;> (try split at h') <;> cases h' <;> exact ⟨by decide, by decide⟩

/-- Witness for C2 at a concrete refused connection. -/
theorem c2_witness :
    startsWith (pyOf "翻訳エラー") connErrorMsg = true
      ∧ is_translation_error connErrorMsg = true :=
  c2_failure_reasons_carry_marker (fun _ => .requestError) (pyOf "abstract") (pyOf "llama3")
    connErrorMsg (by decide)

/-- C3, counterexample.  The claim says the cleaned Success text for
body `\x7b"response": "Here is the translation: こんにちは"\x7d` equals
exactly `"こんにちは"` with no surrounding whitespace.  In the code,
`.strip()` runs before the phrase replacement, so the space that
separated the phrase from the translation survives: the result is
`" こんにちは"`, which differs from `"こんにちは"`. -/
theorem c3_counterexample :
    (translate_text_with_ollama (fun _ => .okBody c3Body) (pyOf "abstract") (pyOf "llama3")).1
        = .success (pyOf " こんにちは")
      ∧ pyOf " こんにちは" ≠ pyOf "こんにちは" := by decide

/-- C3, amended.  For that body, `translate` returns a Success whose
text is `" こんにちは"`: the boilerplate phrase is removed by global
substring replacement (no occurrence of it remains in the output), but
a leading space survives because whitespace trimming happens before
phrase removal. -/
theorem c3_amended_phrase_removed_but_space_remains :
    (translate_text_with_ollama (fun _ => .okBody c3Body) (pyOf "abstract") (pyOf "llama3")).1
        = .success (pyOf " こんにちは")
      ∧ containsSub (pyOf "Here is the translation:") (pyOf " こんにちは") = false := by decide

/-- C4.  Whenever the endpoint returns a 2xx body whose decoded text
parses to a JSON object with no `"response"` key, `translate` returns
the sentinel `"翻訳結果がありません。"` as a Success, and
`is_translation_error` does not flag it. -/
theorem c4_missing_response_field_gives_sentinel_success
    (bytes : List Nat) (text model_name : PyStr) (fields : List (PyStr × JsonValue))
    (hparse : jsonLoads (decodeUtf8Ignore bytes) = some (.obj fields))
    (hmiss : dictGet fields (pyOf "response") = none) :
    (translate_text_with_ollama (fun _ => .okBody bytes) text model_name).1
        = .success noResultMsg
      ∧ is_translation_error noResultMsg = false := by
  constructor
  · show handleResponse (.okBody bytes) = .success noResultMsg
    simp only [handleResponse, hparse, hmiss]
    decide
  · decide

/-- Witness for C4 at the concrete body `\x7b\x7d`. -/
theorem c4_witness :
    (translate_text_with_ollama (fun _ => .okBody (encodeUtf8 (pyOf "\x7b\x7d")))
        (pyOf "abstract") (pyOf "llama3")).1 = .success noResultMsg
      ∧ is_translation_error noResultMsg = false :=
  c4_missing_response_field_gives_sentinel_success _ (pyOf "abstract") (pyOf "llama3") []
    (by rfl) (by rfl)

/-- C5.  The decoding step is total and drops byte subsequences that
are not valid UTF-8: for any junk bytes (stray continuation bytes,
overlong leads `0xC0`/`0xC1`, or leads `≥ 0xF5`) interleaved with the
UTF-8 encodings of any two scalar strings, decoding returns exactly the
two strings; and end to end, a body of `c5Json` with such bytes spliced
around it still parses, its text field is still extracted, and the call
succeeds. -/
theorem c5_lossy_decoding_drops_invalid_and_still_parses :
    (∀ (u v : PyStr) (junk1 junk2 junk3 : List Nat),
        (∀ n ∈ u, isScalarB n = true) → (∀ n ∈ v, isScalarB n = true) →
        (∀ b ∈ junk1, junkByte b = true) → (∀ b ∈ junk2, junkByte b = true) →
        (∀ b ∈ junk3, junkByte b = true) →
        decodeUtf8Ignore (junk1 ++ encodeUtf8 u ++ junk2 ++ encodeUtf8 v ++ junk3) = u ++ v)
    ∧ (translate_text_with_ollama
          (fun _ => .okBody ([0xFF] ++ encodeUtf8 c5Json ++ [0x80]))
          (pyOf "abstract") (pyOf "llama3")).1 = .success (pyOf "こんにちは") := by
  constructor
  · intro u v junk1 junk2 junk3 hu hv h1 h2 h3
    simp only [List.append_assoc]
    rw [decode_junk_append _ _ h1, decode_encodeUtf8 _ _ hu, decode_junk_append _ _ h2,
      decode_encodeUtf8 _ _ hv]
    have hj3 : decodeUtf8Ignore junk3 = [] := by
      have h0 := decode_junk_append junk3 [] h3
      rw [List.append_nil] at h0
      exact h0
    rw [hj3, List.append_nil]
  · decide

/-- Witness for C5 at concrete strings and junk bytes. -/
theorem c5_witness :
    decodeUtf8Ignore
        ([0xFF] ++ encodeUtf8 (pyOf "A") ++ [0x90] ++ encodeUtf8 (pyOf "B") ++ [0xF5])
      = pyOf "A" ++ pyOf "B" :=
  c5_lossy_decoding_drops_invalid_and_still_parses.1 (pyOf "A") (pyOf "B")
    [0xFF] [0x90] [0xF5] (by decide) (by decide) (by decide) (by decide) (by decide)

/-- C6.  For every `sourceText` (the empty string included) and every
`modelName`, the call issues exactly one POST request, to
`OLLAMA_API_URL`, with JSON body `\x7bmodel, prompt, stream: false\x7d` and a
180-second timeout, where the prompt is the fixed template with the
text substituted into its single slot; the part before the slot ends
with the start delimiter line and the part after it is the end
delimiter line. -/
theorem c6_single_post_request_with_template
    (endpoint : HttpRequest → HttpBehavior) (text model_name : PyStr) :
    (translate_text_with_ollama endpoint text model_name).2
        = [{ url := OLLAMA_API_URL
             method := pyOf "POST"
             payload := { model := model_name
                          prompt := promptHead ++ text ++ promptTail
                          stream := false }
             timeoutSeconds := 180 }]
      ∧ List.isSuffixOf (pyOf "--- English Abstract ---\n") promptHead = true
      ∧ promptTail = pyOf "\n--- End of Abstract ---\n" :=
  ⟨rfl, by decide, rfl⟩

/-- C7.  `translate` is deterministic: two calls with the same text and
model against the same deterministic endpoint function yield the same
result (outcome and issued requests alike). -/
theorem c7_translate_deterministic
    (endpoint : HttpRequest → HttpBehavior) (text model_name : PyStr)
    (r1 r2 : Outcome × List HttpRequest)
    (h1 : translate_text_with_ollama endpoint text model_name = r1)
    (h2 : translate_text_with_ollama endpoint text model_name = r2) : r1 = r2 :=
  h1.symm.trans h2

/-- Witness for C7 at a concrete call. -/
theorem c7_witness :
    translate_text_with_ollama (fun _ => .requestError) (pyOf "abstract") (pyOf "llama3")
      = translate_text_with_ollama (fun _ => .requestError) (pyOf "abstract") (pyOf "llama3") :=
  c7_translate_deterministic (fun _ => .requestError) (pyOf "abstract") (pyOf "llama3")
    _ _ rfl rfl

/-- C8.  In the orchestrator loop, a record whose translation comes
back as a Failure does not abort the loop: as long as no earlier
record raised an uncaught exception, every record before the failed
one, the failed one itself (with its failure reason as text), and all
records after it are still processed and written. -/
theorem c8_record_failure_does_not_abort_rest
    (fill : PyStr → PyStr) (endpoint : HttpRequest → HttpBehavior) (model_name : PyStr)
    (pre : List PaperRecord) (rec : PaperRecord) (post : List PaperRecord) (reason : PyStr)
    (hpre : ∀ r ∈ pre,
      isUncaught
        (translate_text_with_ollama endpoint (normalizeAbstract r.summary) model_name).1
          = false)
    (hrec : (translate_text_with_ollama endpoint (normalizeAbstract rec.summary) model_name).1
      = .failure reason) :
    processRecords fill endpoint model_name (pre ++ rec :: post)
      = pre.map (fun r => recordBlock fill r
            (outcomeText
              (translate_text_with_ollama endpoint (normalizeAbstract r.summary) model_name).1))
        ++ recordBlock fill rec reason :: processRecords fill endpoint model_name post := by
  induction pre with
  | nil =>
    rw [List.nil_append, List.map_nil, List.nil_append]
    simp only [processRecords, hrec]
  | cons r pre ih =>
    rw [List.cons_append,
      processRecords_cons_not_uncaught fill endpoint model_name r _ (hpre r (by simp)),
      ih fun x hx => hpre x (by simp [hx]),
      List.map_cons, List.cons_append]

/-- Witness for C8: three records against an endpoint that refuses every
connection, so the middle record fails and the later record is still
written. -/
theorem c8_witness :
    processRecords id (fun _ => .requestError) (pyOf "llama3")
        ([mkRec 1] ++ mkRec 2 :: [mkRec 3])
      = [mkRec 1].map (fun r => recordBlock id r
            (outcomeText
              (translate_text_with_ollama (fun _ => .requestError)
                (normalizeAbstract r.summary) (pyOf "llama3")).1))
        ++ recordBlock id (mkRec 2) connErrorMsg
          :: processRecords id (fun _ => .requestError) (pyOf "llama3") [mkRec 3] :=
  c8_record_failure_does_not_abort_rest id (fun _ => .requestError) (pyOf "llama3")
    [mkRec 1] (mkRec 2) [mkRec 3] connErrorMsg (by decide) (by decide)

/-- C9, counterexample.  The claim asserts that because the first
boilerplate phrase is a substring of the second, any occurrence of the
second phrase is only partially removed and the residue
`" of the English text into Japanese:"` always remains.  In fact the
first phrase (ending in a colon) is not a substring of the second
(which continues with `" of"`), so the second phrase is removed in
full: for `c9Body` the Success text is `" X"` and contains no
residue. -/
theorem c9_counterexample :
    (translate_text_with_ollama (fun _ => .okBody c9Body) (pyOf "abstract") (pyOf "llama3")).1
        = .success (pyOf " X")
      ∧ containsSub (pyOf " of the English text into Japanese:") (pyOf " X") = false := by
  decide

/-- C9, amended.  The cleanup applies the two phrases in list order as
global substring replacements; since the first phrase is not a
substring of the second, occurrences of the second phrase are
unaffected by the first replacement and are removed in full by the
second — no residue remains. -/
theorem c9_amended_second_phrase_removed_in_full :
    (∀ s : PyStr, removePhrases s
        = removeAll (pyOf "Here is the translation of the English text into Japanese:")
            (removeAll (pyOf "Here is the translation:") s))
      ∧ containsSub (pyOf "Here is the translation:")
          (pyOf "Here is the translation of the English text into Japanese:") = false
      ∧ removePhrases (pyOf "Here is the translation of the English text into Japanese: X")
          = pyOf " X" :=
  ⟨fun _ => rfl, by decide, by decide⟩

/-- C10.  The string-based ABI overlaps: a mechanically successful
response whose generated text begins with `"翻訳エラー"` is returned as
a Success, yet `is_translation_error` flags it, so prefix inspection
classifies a genuine translation as a Failure. -/
theorem c10_success_and_failure_outputs_overlap :
    (translate_text_with_ollama (fun _ => .okBody c10Body) (pyOf "abstract") (pyOf "llama3")).1
        = .success (pyOf "翻訳エラー：既知の問題")
      ∧ is_translation_error (pyOf "翻訳エラー：既知の問題") = true := by decide

end PaperTranslator
